import Mathlib

/-!
Verification development for the poker hand-evaluation and game-simulation
service (`backend/app/services/poker_service.py`).

The service delegates hand ranking and the no-limit hold'em state machine to
the external `pokerkit` library, which is not part of the repository.  Those
missing operations are modelled from the specification (sections 3, 4.3, 4.4
and 4.6); every such definition carries a doc comment starting with
"Modelled from the spec:".  All remaining definitions are translated directly
from the Python source.

Randomness sources (`random.shuffle`, `uuid.uuid4`) are passed in explicitly:
`create_new_game` receives the shuffled deck as an argument and its `id`
field is modelled as the empty string (no claim concerns it).
-/

set_option maxRecDepth 8000

instance [DecidableEq ε] [DecidableEq α] : DecidableEq (Except ε α) := fun a b =>
  match a, b with
  | .error e, .error f => decidable_of_iff (e = f) (by simp)
  | .ok x, .ok y => decidable_of_iff (x = y) (by simp)
  | .error _, .ok _ => isFalse (by simp)
  | .ok _, .error _ => isFalse (by simp)

/-- Card value type mirroring pokerkit's `Card(rank, suit)` as used by the service. -/
structure Card where
  rank : Char
  suit : Char
deriving DecidableEq

/-- Valid rank characters, from `PokerService.VALID_RANKS = set('23456789TJQKA')`.
Python set iteration order is unspecified; only membership and the induced
52-card universe matter, so a fixed order is used here. -/
def VALID_RANKS : List Char := ['2','3','4','5','6','7','8','9','T','J','Q','K','A']

/-- Valid suit characters, from `PokerService.VALID_SUITS = set('shdc')`. -/
def VALID_SUITS : List Char := ['s','h','d','c']

/-- Embeds `PokerService._is_valid_card`: a two-character string whose first
character is a valid rank and second a valid suit. -/
def is_valid_card (card : String) : Bool :=
  card.length == 2 &&
    VALID_RANKS.contains (card.data.getD 0 'x') &&
    VALID_SUITS.contains (card.data.getD 1 'x')

/-- Parse a two-character token into a `Card`, mirroring `Card(card[0], card[1])`.
Only applied to tokens that passed `is_valid_card`. -/
def parseCard (s : String) : Card :=
  ⟨s.data.getD 0 'x', s.data.getD 1 'x'⟩

/-- Format a card back to its token, mirroring `f"{card.rank}{card.suit}"`. -/
def formatCard (c : Card) : String :=
  String.mk [c.rank, c.suit]

/-- Modelled from the spec: numeric value of a rank character, Ace high
(section 3: ordered rank domain 2..A). -/
def rankValue (r : Char) : Nat :=
  if r = '2' then 2 else if r = '3' then 3 else if r = '4' then 4
  else if r = '5' then 5 else if r = '6' then 6 else if r = '7' then 7
  else if r = '8' then 8 else if r = '9' then 9 else if r = 'T' then 10
  else if r = 'J' then 11 else if r = 'Q' then 12 else if r = 'K' then 13
  else if r = 'A' then 14 else 0

/-- Insertion step of the sort used by the modelled evaluator; `before x y = true`
places `x` ahead of `y`. -/
def insertOrd (before : α → α → Bool) (x : α) : List α → List α
  | [] => [x]
  | y :: ys => if before x y then x :: y :: ys else y :: insertOrd before x ys

/-- Insertion sort used by the modelled evaluator. -/
def sortOrd (before : α → α → Bool) : List α → List α
  | [] => []
  | x :: xs => insertOrd before x (sortOrd before xs)

/-- Modelled from the spec: histogram of a combination's ranks (section 4.3 step 1),
listed as (multiplicity, rank value) pairs sorted by multiplicity then rank,
both descending, which is the order tiebreak sequences are read off in step 5. -/
def rankCounts (cs : List Card) : List (Nat × Nat) :=
  let vals := cs.map (fun c => rankValue c.rank)
  let pairs := vals.dedup.map (fun v => (vals.count v, v))
  sortOrd (fun a b => Nat.blt b.1 a.1 || (a.1 == b.1 && Nat.blt b.2 a.2)) pairs

/-- Modelled from the spec: flush test — all five suits equal (section 4.3 step 2). -/
def isFlush (cs : List Card) : Bool :=
  match cs with
  | [] => true
  | c :: rest => rest.all (fun d => d.suit == c.suit)

/-- Modelled from the spec: straight test with the Ace-low wheel special case
(section 4.3 step 3).  Returns the straight's high rank value (5 for the wheel). -/
def straightHigh (cs : List Card) : Option Nat :=
  let vs := sortOrd (fun a b => Nat.blt b a) (cs.map (fun c => rankValue c.rank)).dedup
  if vs.length == 5 then
    let a := vs.getD 0 0
    if vs == [a, a-1, a-2, a-3, a-4] then some a
    else if vs == [14, 5, 4, 3, 2] then some 5
    else none
  else none

/-- Hand rank value of one five-card combination: category (1..10, section 3
HandCategory) and tiebreak sequence. -/
structure HandScore where
  cat : Nat
  tie : List Nat
deriving DecidableEq

/-- Modelled from the spec: classify one five-card combination by histogram shape
plus flush/straight flags, in the strict precedence of section 4.3 step 4, with
the tiebreak sequences of step 5. -/
def score5 (cs : List Card) : HandScore :=
  let counts := rankCounts cs
  let shape := counts.map (fun p => p.1)
  let vals := counts.map (fun p => p.2)
  match straightHigh cs, isFlush cs with
  | some h, true => if h == 14 then ⟨10, [14]⟩ else ⟨9, [h]⟩
  | st, fl =>
    if shape == [4, 1] then ⟨8, vals⟩
    else if shape == [3, 2] then ⟨7, vals⟩
    else if fl then ⟨6, vals⟩
    else
      match st with
      | some h => ⟨5, [h]⟩
      | none =>
        if shape == [3, 1, 1] then ⟨4, vals⟩
        else if shape == [2, 2, 1] then ⟨3, vals⟩
        else if shape == [2, 1, 1, 1] then ⟨2, vals⟩
        else ⟨1, vals⟩

/-- Lexicographic strict comparison of tiebreak sequences (descending
significance, section 3 HandRank ordering). -/
def tieLtBool : List Nat → List Nat → Bool
  | [], [] => false
  | [], _ :: _ => true
  | _ :: _, [] => false
  | a :: as, b :: bs => if a < b then true else if b < a then false else tieLtBool as bs

/-- Strict ordering on hand scores: category first, then tiebreak (section 3). -/
def scoreLt (x y : HandScore) : Bool :=
  Nat.blt x.cat y.cat || (x.cat == y.cat && tieLtBool x.tie y.tie)

/-- Modelled from the spec: enumerate all five-card combinations of the input and
keep a maximum under the HandRank ordering (section 4.3).  The empty seed loses
to every real combination. -/
def bestCombo (cs : List Card) : List Card :=
  (List.sublistsLen 5 cs).foldl
    (fun best c => if scoreLt (score5 best) (score5 c) then c else best) []

/-- Modelled from the spec: the best achievable score over all five-card subsets
of the input (section 4.3). -/
def bestScore (cs : List Card) : HandScore := score5 (bestCombo cs)

/-- Cards held by a constructed pokerkit `StandardHighHand` (its `cards` field). -/
structure StdHand where
  cards : List Card
deriving DecidableEq

/-- Modelled from the spec: pokerkit's `StandardHighHand` constructor.  The library
is not part of the repository; per sections 4.3 and 6 the evaluator accepts 5 to 7
pairwise-distinct cards and determines the best five-card hand, with `best5`
sorted descending by rank for determinism.  Too few cards fail with
`InsufficientCards` and repeated cards with `DuplicateCard` (section 4.3 errors). -/
def StandardHighHand_make (cs : List Card) : Except String StdHand :=
  if cs.length < 5 then .error "InsufficientCards"
  else if 7 < cs.length then .error "InvalidCardCount"
  else if ¬ cs.Nodup then .error "DuplicateCard"
  else .ok ⟨sortOrd (fun a b => Nat.blt (rankValue b.rank) (rankValue a.rank)) (bestCombo cs)⟩

/-- Return shape of `PokerService.evaluate_hand`. -/
structure EvalHandResult where
  hand_type : String
  rank : Nat
  best_cards : List String
deriving DecidableEq

/-- Embeds the `hand_ranks` dictionary literal inside `evaluate_hand`. -/
def hand_ranks : List (String × Nat) :=
  [("HighCard", 1), ("Pair", 2), ("TwoPair", 3), ("ThreeOfAKind", 4), ("Straight", 5),
   ("Flush", 6), ("FullHouse", 7), ("FourOfAKind", 8), ("StraightFlush", 9), ("RoyalFlush", 10)]

/-- Embeds the `.replace('Hand', '')` call of `evaluate_hand` on the character
list: Python's `str.replace` deletes every non-overlapping occurrence of the
pattern "Hand", scanning left to right and continuing after each deletion. -/
def eraseHandChars : List Char → List Char
  | [] => []
  | 'H' :: 'a' :: 'n' :: 'd' :: rest => eraseHandChars rest
  | c :: rest => c :: eraseHandChars rest

/-- String wrapper for `eraseHandChars`. -/
def eraseHand (s : String) : String := String.mk (eraseHandChars s.data)

/-- Embeds the validation loop of `evaluate_hand`: per-token format check against
`_is_valid_card`, duplicate check against the `seen_cards` set, then parse. -/
def checkCards (seen : List String) : List String → Except String (List Card)
  | [] => .ok []
  | c :: rest =>
    if !is_valid_card c then .error ("Invalid card format: " ++ c)
    else if seen.contains c then .error ("Duplicate card: " ++ c)
    else (checkCards (c :: seen) rest).map (fun cs => parseCard c :: cs)

/-- Embeds `PokerService.evaluate_hand`.  The object built by calling the class
`StandardHighHand` is an instance of exactly that class, so
`hand.__class__.__name__` is the string "StandardHighHand"; the source derives
`hand_type` by deleting every occurrence of "Hand" from that name and looks the
result up in `hand_ranks` with default 1. -/
def evaluate_hand (cards : List String) : Except String EvalHandResult :=
  if cards.length < 5 then .error "A hand must contain at least 5 cards"
  else
    match checkCards [] cards with
    | .error e => .error e
    | .ok card_objects =>
      match StandardHighHand_make card_objects with
      | .error e => .error ("Hand evaluation failed: " ++ e)
      | .ok hand =>
        let className := "StandardHighHand"
        let hand_type := eraseHand className
        let rank := (hand_ranks.lookup hand_type).getD 1
        let best_cards := (hand.cards.take 5).map formatCard
        .ok ⟨hand_type, rank, best_cards⟩

/-- Python value appearing in an action record (JSON-derived): an integer, a
float, or a string.  Absent keys are `Option.none` at the use sites.  Floats are
modelled exactly as rationals; no claim depends on binary rounding. -/
inductive PyVal where
  | pint : Int → PyVal
  | pfloat : Rat → PyVal
  | pstr : String → PyVal
deriving DecidableEq

/-- Numeric reading of a `PyVal` as a chip amount entering the engine.  Every
claim exercises integer amounts there (the spec types `amount` as an integer,
sections 3 and 6); a float is read by its floor, a string as 0 — neither case
is reachable in any theorem below. -/
def PyVal.toAmount : PyVal → Int
  | pint n => n
  | pfloat q => q.floor
  | pstr _ => 0

/-- Python string formatting of a value inside f-string error messages
(approximate for floats; no claim inspects those messages). -/
def PyVal.fmt : PyVal → String
  | pint n => toString n
  | pfloat q => toString q
  | pstr s => s

/-- Action record as consumed by the service: an untyped dict with optional
`type`, `player` and `amount` keys. -/
structure ActionDict where
  type : Option String := none
  player : Option PyVal := none
  amount : Option PyVal := none
deriving DecidableEq

/-- Game-state dict as consumed by `validate_action`: the five keys the source
checks for; a missing key is `none`.  The field `stacks_` models the source's
`stacks` key (the unsuffixed name is a reserved token of a library attribute,
so Lean does not allow it as an identifier). -/
structure GSDict where
  stacks_ : Option (List Int) := none
  positions : Option (List (String × Int)) := none
  player_cards : Option (List (String × List String)) := none
  board_cards : Option (List String) := none
  actions : Option (List String) := none

/-- Embeds the `valid_action_types` list of `validate_action`. -/
def valid_action_types : List String :=
  ["fold", "check", "call", "bet", "raise", "allin", "deal_flop", "deal_turn", "deal_river"]

/-- Embeds the bet/raise amount check of `validate_action` (lines 342-348), the
fall-through tail after the player check: an amount is required and must be an
`int` or `float` strictly greater than zero. -/
def validate_amount (action_type : String) (amount : Option PyVal) : Bool × Option String :=
  if ["bet", "raise"].contains action_type then
    match amount with
    | none => (false, some "Amount must be specified for this action type")
    | some a =>
      match a with
      | .pint n => if n ≤ 0 then (false, some ("Invalid amount: " ++ a.fmt)) else (true, none)
      | .pfloat q => if q ≤ 0 then (false, some ("Invalid amount: " ++ a.fmt)) else (true, none)
      | .pstr _ => (false, some ("Invalid amount: " ++ a.fmt))
  else (true, none)

/-- Embeds the player check of `validate_action` (lines 334-340) for player
actions, falling through to the amount check: a player key is required and must
be an `int` within `0 <= player < len(stacks)`. -/
def validate_player_amount (action_type : String) (player : Option PyVal)
    (amount : Option PyVal) (stacksLen : Nat) : Bool × Option String :=
  if ["fold", "check", "call", "bet", "raise", "allin"].contains action_type then
    match player with
    | none => (false, some "Player must be specified for this action type")
    | some (.pint i) =>
      if i < 0 ∨ (stacksLen : Int) ≤ i then
        (false, some ("Invalid player index: " ++ (PyVal.pint i).fmt))
      else validate_amount action_type amount
    | some p => (false, some ("Invalid player index: " ++ p.fmt))
  else validate_amount action_type amount

/-- Embeds `PokerService.validate_action`.  A game state missing one of the five
required keys raises (modelled as `Except.error`); otherwise the source returns
the `(is_valid, error_message)` pair.  `if not action_type` treats both a
missing and an empty type string as falsy. -/
def validate_action (game_state : GSDict) (action : ActionDict) :
    Except String (Bool × Option String) :=
  if game_state.stacks_.isNone || game_state.positions.isNone ||
      game_state.player_cards.isNone || game_state.board_cards.isNone ||
      game_state.actions.isNone then
    .error "Game state missing required keys"
  else
    match action.type with
    | none => .ok (false, some "Action type is required")
    | some action_type =>
      if action_type = "" then .ok (false, some "Action type is required")
      else if !valid_action_types.contains action_type then
        .ok (false, some ("Invalid action type: " ++ action_type))
      else
        .ok (validate_player_amount action_type action.player action.amount
              ((game_state.stacks_.getD []).length))

/-- Modelled from the spec: the pokerkit no-limit hold'em table state driven by
`evaluate_poker_game` (sections 3, 4.4 and 4.6).  The source creates it via
`NoLimitTexasHoldem.create_state` with blinds (20, 40), min-bet 40 and 6 seats,
requesting automation of ante/blind posting, bet collection, showdown and chip
pushing, so those bookkeeping steps happen by themselves here.  Seats 0 and 1
post the small and big blind; preflop action starts at seat 2 and postflop
action at seat 0.  `queue` lists the players still to act on the current
street in order, its head being the actor.  `stacks_` models pokerkit's
`stacks` (remaining chips; the unsuffixed name is a reserved library token). -/
structure PKState where
  stacks_ : List Int
  bets : List Int
  totalContrib : List Int
  pot : Int
  folded : List Bool
  allin : List Bool
  queue : List Nat
  betLevel : Int
  lastRaise : Int
  boardCount : Nat
  boardDealt : List Card
  holes : List (List Card)
  dealtCards : List Card
  burned : Nat
  dealer : Nat
  terminal : Bool
  history : List String
deriving DecidableEq

/-- Players that have not folded, in seating order. -/
def activePlayers (st : PKState) : List Nat :=
  (List.range 6).filter (fun i => !(st.folded.getD i false))

/-- Whether every seat has received its two hole cards, so betting may proceed. -/
def holeDealingDone (st : PKState) : Bool :=
  (List.range 6).all (fun i => (st.holes.getD i []).length == 2)

/-- Modelled from the spec: hand strength of player `i` at showdown — the best
five-card hand from the hole cards plus the revealed board (section 4.6). -/
def playerScore (st : PKState) (i : Nat) : HandScore :=
  bestScore (st.holes.getD i [] ++ st.boardDealt)

/-- Distinct positive contribution levels in ascending order: the side-pot
layer boundaries of section 4.6. -/
def levelsOf (contrib : List Int) : List Int :=
  sortOrd (fun a b => decide (a < b)) (contrib.filter (fun c => decide (0 < c))).dedup

/-- Total chips contributed up to a layer boundary. -/
def capSum (contrib : List Int) (lv : Int) : Int :=
  (contrib.map (fun c => min c lv)).sum

/-- Maximum hand score among the given players. -/
def maxScoreOf (scores : List HandScore) (is : List Nat) : HandScore :=
  is.foldl (fun best i => if scoreLt best (scores.getD i ⟨0, []⟩)
    then scores.getD i ⟨0, []⟩ else best) ⟨0, []⟩

/-- Players among `eligible` whose hand score is maximal. -/
def layerWinners (scores : List HandScore) (eligible : List Nat) : List Nat :=
  let m := maxScoreOf scores eligible
  eligible.filter (fun i => scores.getD i ⟨0, []⟩ == m)

/-- Add an equal share to each listed player's payout. -/
def addPayout (payouts : List Int) (is : List Nat) (share : Int) : List Int :=
  is.foldl (fun ps i => ps.set i (ps.getD i 0 + share)) payouts

/-- Modelled from the spec: layered side-pot resolution (section 4.6).  Each
layer between consecutive contribution levels is split equally among the
non-folded players eligible for it that hold the best hand; a layer no active
player is eligible for is returned to its contributors (the uncalled portion
of a bet).  The spec leaves odd-chip handling open (section 9) and suggests
giving the remainder to the earliest position; each layer is split by integer
division with the remainder handed to its first recipient in seating order. -/
def layeredLoop (contrib : List Int) (scores : List HandScore) (active : List Nat) :
    List Int → Int → List Int → List Int
  | [], _, payouts => payouts
  | lv :: rest, prev, payouts =>
    let layerAmt := capSum contrib lv - capSum contrib prev
    let eligible := active.filter (fun i => decide (lv ≤ contrib.getD i 0))
    let recipients :=
      if eligible.isEmpty then (List.range 6).filter (fun i => decide (lv ≤ contrib.getD i 0))
      else layerWinners scores eligible
    let payouts' :=
      if recipients.isEmpty then payouts
      else
        let share := layerAmt / (recipients.length : Int)
        let rem := layerAmt % (recipients.length : Int)
        addPayout (addPayout payouts recipients share) (recipients.take 1) rem
    layeredLoop contrib scores active rest lv payouts'

/-- Modelled from the spec: terminal settlement — pokerkit's automated showdown,
hand ranking and chip pushing (section 4.6).  All contributed chips are paid
back out by layers and the hand becomes terminal. -/
def settle (st : PKState) : PKState :=
  let active := activePlayers st
  let scores := (List.range 6).map (fun i => playerScore st i)
  let payouts := layeredLoop st.totalContrib scores active (levelsOf st.totalContrib) 0
    (List.replicate 6 0)
  { st with
    stacks_ := (List.range 6).map (fun i => st.stacks_.getD i 0 + payouts.getD i 0),
    bets := List.replicate 6 0, pot := 0, queue := [], terminal := true }

/-- Modelled from the spec: pokerkit's automated bet collection at the close of a
betting round — street bets move into the pot. -/
def collectBets (st : PKState) : PKState :=
  { st with pot := st.pot + st.bets.sum, bets := List.replicate 6 0 }

/-- Modelled from the spec: the automated bookkeeping pokerkit performs after an
operation: an uncontested hand (one non-folded player) is settled at once; a
betting round with nobody left to act is collected, and if the board is
complete the showdown is settled (sections 4.4 and 4.6). -/
def postAction (st : PKState) : PKState :=
  if st.terminal then st
  else if (activePlayers st).length == 1 then settle st
  else if st.queue.isEmpty then
    let st' := collectBets st
    if st'.boardCount == 5 then settle st' else st'
  else st

/-- Modelled from the spec: pokerkit `State.check_or_call` — the acting player
matches the current bet level, capped at their stack (capping marks them
all-in: the short all-in call of section 4.4). -/
def check_or_call (st : PKState) : Except String PKState :=
  if st.terminal then .error "check_or_call: hand is over"
  else
    match st.queue with
    | [] => .error "check_or_call: no player to act"
    | actor :: rest =>
      if !holeDealingDone st then .error "check_or_call: hole cards not fully dealt"
      else
        let owe := max 0 (st.betLevel - st.bets.getD actor 0)
        let delta := min owe (st.stacks_.getD actor 0)
        let stacks' := st.stacks_.set actor (st.stacks_.getD actor 0 - delta)
        let allin' := if stacks'.getD actor 0 == 0 then st.allin.set actor true else st.allin
        .ok (postAction { st with
          stacks_ := stacks',
          bets := st.bets.set actor (st.bets.getD actor 0 + delta),
          totalContrib := st.totalContrib.set actor (st.totalContrib.getD actor 0 + delta),
          allin := allin', queue := rest,
          history := st.history ++ ["check_or_call"] })

/-- Modelled from the spec: pokerkit `State.fold` — the acting player is marked
folded and leaves the turn order (section 4.4 Fold). -/
def pkFold (st : PKState) : Except String PKState :=
  if st.terminal then .error "fold: hand is over"
  else
    match st.queue with
    | [] => .error "fold: no player to act"
    | actor :: rest =>
      if !holeDealingDone st then .error "fold: hole cards not fully dealt"
      else
        .ok (postAction { st with
          folded := st.folded.set actor true, queue := rest,
          history := st.history ++ ["fold"] })

/-- Seating order after a player, wrapping around the six seats. -/
def rotationAfter (actor : Nat) : List Nat :=
  (List.range 5).map (fun k => (actor + 1 + k) % 6)

/-- Modelled from the spec: pokerkit `State.complete_bet_or_raise_to` — the
acting player raises the street's bet level to `amount` (a to-amount).  The
amount may not exceed the player's stack plus their current street bet, must
exceed the current level, and must meet the minimum raise increment unless it
is exactly an all-in (section 4.4 Bet/Raise/AllIn).  Raising reopens the
action to every other live player. -/
def complete_bet_or_raise_to (st : PKState) (amount : Int) : Except String PKState :=
  if st.terminal then .error "complete_bet_or_raise_to: hand is over"
  else
    match st.queue with
    | [] => .error "complete_bet_or_raise_to: no player to act"
    | actor :: _ =>
      if !holeDealingDone st then .error "complete_bet_or_raise_to: hole cards not fully dealt"
      else
        let maxTo := st.stacks_.getD actor 0 + st.bets.getD actor 0
        if maxTo < amount then .error "complete_bet_or_raise_to: amount exceeds the player's stack"
        else if amount ≤ st.betLevel then
          .error "complete_bet_or_raise_to: amount does not exceed the current bet"
        else if amount < st.betLevel + st.lastRaise ∧ amount ≠ maxTo then
          .error "complete_bet_or_raise_to: raise below the minimum"
        else
          let delta := amount - st.bets.getD actor 0
          let stacks' := st.stacks_.set actor (st.stacks_.getD actor 0 - delta)
          let allin' := if stacks'.getD actor 0 == 0 then st.allin.set actor true else st.allin
          .ok (postAction { st with
            stacks_ := stacks',
            bets := st.bets.set actor amount,
            totalContrib := st.totalContrib.set actor (st.totalContrib.getD actor 0 + delta),
            allin := allin',
            betLevel := amount,
            lastRaise := amount - st.betLevel,
            queue := (rotationAfter actor).filter (fun i =>
              !(st.folded.getD i false) && !(allin'.getD i false)),
            history := st.history ++ ["complete_bet_or_raise_to"] })

/-- Modelled from the spec: pokerkit `State.burn_card` — legal only between
betting rounds while board cards remain to be dealt (burn-then-reveal
discipline, section 4.4). -/
def burn_card (st : PKState) : Except String PKState :=
  if st.terminal then .error "burn_card: hand is over"
  else if !st.queue.isEmpty then .error "burn_card: betting round still open"
  else if 5 ≤ st.boardCount then .error "burn_card: board already complete"
  else .ok { st with burned := st.burned + 1, history := st.history ++ ["burn_card"] }

/-- Collision-checked dealing used by hole and board dealing: each card must not
already be assigned (spec section 4.2 collision avoidance, invariant 1). -/
def addDealt : List Card → List Card → Except String (List Card)
  | dealt, [] => .ok dealt
  | dealt, c :: cs =>
    if dealt.contains c then .error "card already dealt" else addDealt (dealt ++ [c]) cs

/-- Modelled from the spec: pokerkit `State.deal_board` — reveals the street's
board cards (3 for the flop, then 1 and 1), opens the next betting round with
bet level 0 and the minimum bet restored, and puts every live player back in
the acting queue starting from seat 0 (section 4.4 street advance). -/
def deal_board (st : PKState) (cs : List Card) : Except String PKState :=
  if st.terminal then .error "deal_board: hand is over"
  else if !st.queue.isEmpty then .error "deal_board: betting round still open"
  else if 5 ≤ st.boardCount then .error "deal_board: board already complete"
  else
    let expected := if st.boardCount == 0 then 3 else 1
    if cs.length ≠ expected then .error "deal_board: wrong number of cards"
    else
      match addDealt st.dealtCards cs with
      | .error e => .error ("deal_board: " ++ e)
      | .ok dealt' =>
        .ok (postAction { st with
          boardDealt := st.boardDealt ++ cs,
          dealtCards := dealt',
          boardCount := st.boardCount + cs.length,
          betLevel := 0, lastRaise := 40,
          queue := (List.range 6).filter (fun i =>
            !(st.folded.getD i false) && !(st.allin.getD i false)),
          history := st.history ++ ["deal_board"] })

/-- Modelled from the spec: pokerkit `State.deal_hole` — assigns two specified
cards to a seat, rejecting cards that are already assigned (invariant 1) and
seats that are out of range or already served. -/
def deal_hole (st : PKState) (cs : List Card) (player : Nat) : Except String PKState :=
  if 6 ≤ player then .error "deal_hole: invalid player index"
  else if 2 < (st.holes.getD player []).length + cs.length then
    .error "deal_hole: too many hole cards"
  else
    match addDealt st.dealtCards cs with
    | .error e => .error ("deal_hole: " ++ e)
    | .ok dealt' =>
      .ok { st with
        holes := st.holes.set player (st.holes.getD player [] ++ cs),
        dealtCards := dealt',
        history := st.history ++ ["deal_hole"] }

/-- Modelled from the spec: `NoLimitTexasHoldem.create_state` with the source's
arguments — 0 antes, blinds (20, 40), min-bet 40, the given starting stacks and
6 players.  With blind posting automated, seats 0 and 1 have the small and big
blind deducted at creation, before any hole card is dealt. -/
def create_state (stacks0 : List Int) : PKState :=
  let s : List Int := stacks0
  let sb := min 20 (s.getD 0 0)
  let bb := min 40 (s.getD 1 0)
  let stacks' := (s.set 0 (s.getD 0 0 - sb)).set 1 (s.getD 1 0 - bb)
  let bets0 := ((List.replicate 6 (0 : Int)).set 0 sb).set 1 bb
  let allin0 := (List.range 6).map (fun i => stacks'.getD i 0 == 0)
  { stacks_ := stacks', bets := bets0, totalContrib := bets0, pot := 0,
    folded := List.replicate 6 false, allin := allin0,
    queue := [2, 3, 4, 5, 0, 1].filter (fun i => !(allin0.getD i false)),
    betLevel := 40, lastRaise := 40, boardCount := 0, boardDealt := [],
    holes := List.replicate 6 [], dealtCards := [], burned := 0, dealer := 5,
    terminal := false, history := [] }

/-- Modelled from the spec: pokerkit's `state.actor` — the player whose turn it
is, if any. -/
def PKState.actor (st : PKState) : Option Nat :=
  if st.terminal then none else st.queue.head?

/-- Modelled from the spec: pokerkit's `state.min_raise_to` — current bet level
plus the last bet or raise size (section 4.4 Raise). -/
def PKState.min_raise_to (st : PKState) : Int := st.betLevel + st.lastRaise

/-- Modelled from the spec: pokerkit's automated `show_or_muck_hole_cards`,
invoked by the source when the action list left all five board cards dealt but
the hand not terminal.  With the betting round closed it settles the showdown;
during an open round it fails, which the source surfaces as "Showdown failed". -/
def show_or_muck_hole_cards (st : PKState) : Except String PKState :=
  if st.terminal then .error "hand is over"
  else if st.queue.isEmpty then .ok (settle (collectBets st))
  else .error "betting round still open"

/-- Embeds `PokerService._state_to_dict`: the dict view of the live state handed
to `validate_action` inside the action loop; every required key is present. -/
def state_to_dict (st : PKState) : GSDict :=
  { stacks_ := some st.stacks_,
    positions := some [("dealer", (st.dealer : Int)),
                       ("sb", (((st.dealer + 1) % 6 : Nat) : Int)),
                       ("bb", (((st.dealer + 2) % 6 : Nat) : Int))],
    player_cards := some (((List.range 6).filter
        (fun i => !(st.holes.getD i []).isEmpty)).map
        (fun i => (toString i, (st.holes.getD i []).map formatCard))),
    board_cards := some (st.boardDealt.map formatCard),
    actions := some st.history }

/-- Loop state of the action-processing loop of `evaluate_poker_game`: the
pokerkit state, the `street_cards_dealt` counter and the submitted board
tokens (already validated). -/
structure EngineCtx where
  st : PKState
  street_cards_dealt : Nat
  board_cards : List String
deriving DecidableEq

/-- Embeds one iteration of the action loop of `evaluate_poker_game` (lines
181-223): the action is validated against the dict view of the live state and
rejected with "Invalid action: ..." if the validator refuses it; otherwise it
is dispatched on its `type`.  Both "check" and "call" invoke
`state.check_or_call()`; "bet" and "raise" pass their amount (with the
source's defaults) to `state.complete_bet_or_raise_to()`; "allin" passes the
actor's remaining stack and does nothing at all when there is no actor. -/
def applyEngineAction (ctx : EngineCtx) (action : ActionDict) : Except String EngineCtx :=
  match validate_action (state_to_dict ctx.st) action with
  | .error e => .error e
  | .ok (valid, err) =>
    if !valid then
      .error ("Invalid action: " ++ (match err with | some m => m | none => "None"))
    else
      let wr : PKState → Nat → Except String EngineCtx := fun st scd =>
        .ok ⟨st, scd, ctx.board_cards⟩
      let action_type := action.type.getD ""
      if action_type == "deal_flop" then
        if ctx.street_cards_dealt != 0 then .error "Flop can only be dealt once"
        else
          match burn_card ctx.st with
          | .error e => .error e
          | .ok st1 =>
            match deal_board st1 ((ctx.board_cards.take 3).map parseCard) with
            | .error e => .error e
            | .ok st2 => wr st2 3
      else if action_type == "deal_turn" then
        if ctx.street_cards_dealt != 3 then .error "Turn can only be dealt after flop"
        else
          match burn_card ctx.st with
          | .error e => .error e
          | .ok st1 =>
            if 3 < ctx.board_cards.length then
              match deal_board st1 (((ctx.board_cards.drop 3).take 1).map parseCard) with
              | .error e => .error e
              | .ok st2 => wr st2 4
            else wr st1 4
      else if action_type == "deal_river" then
        if ctx.street_cards_dealt != 4 then .error "River can only be dealt after turn"
        else
          match burn_card ctx.st with
          | .error e => .error e
          | .ok st1 =>
            if 4 < ctx.board_cards.length then
              match deal_board st1 (((ctx.board_cards.drop 4).take 1).map parseCard) with
              | .error e => .error e
              | .ok st2 => wr st2 5
            else wr st1 5
      else if action_type == "fold" then
        match pkFold ctx.st with
        | .error e => .error e
        | .ok st1 => wr st1 ctx.street_cards_dealt
      else if action_type == "check" then
        match check_or_call ctx.st with
        | .error e => .error e
        | .ok st1 => wr st1 ctx.street_cards_dealt
      else if action_type == "call" then
        match check_or_call ctx.st with
        | .error e => .error e
        | .ok st1 => wr st1 ctx.street_cards_dealt
      else if action_type == "bet" then
        match complete_bet_or_raise_to ctx.st (action.amount.getD (.pint 40)).toAmount with
        | .error e => .error e
        | .ok st1 => wr st1 ctx.street_cards_dealt
      else if action_type == "raise" then
        let amt := match action.amount with
          | some a => a.toAmount
          | none => ctx.st.min_raise_to
        match complete_bet_or_raise_to ctx.st amt with
        | .error e => .error e
        | .ok st1 => wr st1 ctx.street_cards_dealt
      else if action_type == "allin" then
        match ctx.st.actor with
        | none => .ok ctx
        | some p =>
          match complete_bet_or_raise_to ctx.st (ctx.st.stacks_.getD p 0) with
          | .error e => .error e
          | .ok st1 => wr st1 ctx.street_cards_dealt
      else .ok ctx

/-- Embeds the `for action in actions` loop of `evaluate_poker_game`. -/
def processActions (ctx : EngineCtx) : List ActionDict → Except String EngineCtx
  | [] => .ok ctx
  | a :: rest =>
    match applyEngineAction ctx a with
    | .error e => .error e
    | .ok c => processActions c rest

/-- Embeds the per-player hole-card validation loop of `evaluate_poker_game`
(lines 132-136). -/
def validatePlayerCards : List (String × List String) → Except String Unit
  | [] => .ok ()
  | (p, cs) :: rest =>
    if cs.length ≠ 2 then .error ("Player " ++ p ++ " must have exactly 2 hole cards")
    else if !cs.all (fun c => is_valid_card c) then
      .error ("Invalid hole cards for player " ++ p)
    else validatePlayerCards rest

/-- Decimal digit accumulator for `pyToInt`. -/
def digitsToNatAux : Nat → List Char → Option Nat
  | acc, [] => some acc
  | acc, c :: cs =>
    if c.isDigit then digitsToNatAux (acc * 10 + (c.toNat - '0'.toNat)) cs else none

/-- Digits of a non-empty decimal numeral. -/
def digitsToNat : List Char → Option Nat
  | [] => none
  | ds => digitsToNatAux 0 ds

/-- Embeds Python `int(...)` on a player-index string: an optional sign followed
by decimal digits, `none` when unparsable (the `ValueError` case).  Written
over the character list because Lean's own string-to-number parser walks
platform-word byte iterators. -/
def pyToInt (s : String) : Option Int :=
  match s.data with
  | '-' :: rest => (digitsToNat rest).map (fun n => -(n : Int))
  | '+' :: rest => (digitsToNat rest).map (fun n => (n : Int))
  | ds => (digitsToNat ds).map (fun n => (n : Int))

/-- Embeds the hole-dealing loop of `evaluate_poker_game` (lines 165-174): the
`all_cards` set starts as the board tokens; each player's tokens must avoid it,
then `state.deal_hole` is attempted with the parsed player index, any failure
(bad index or card collision) surfacing as "Failed to deal cards to player". -/
def dealPhase (st : PKState) (allCards : List String) :
    List (String × List String) → Except String PKState
  | [] => .ok st
  | (pidx, cs) :: rest =>
    if cs.any (fun c => allCards.contains c) then
      .error ("Duplicate cards for player " ++ pidx)
    else
      let allCards' := allCards ++ cs
      match pyToInt pidx with
      | none => .error ("Failed to deal cards to player " ++ pidx)
      | some p =>
        if p < 0 ∨ 5 < p then .error ("Failed to deal cards to player " ++ pidx)
        else
          match deal_hole st (cs.map parseCard) p.toNat with
          | .error e => .error ("Failed to deal cards to player " ++ pidx ++ ": " ++ e)
          | .ok st' => dealPhase st' allCards' rest

/-- Embeds `PokerService.evaluate_poker_game`: input validation, game-state
creation, hole dealing, the action loop, the post-loop showdown nudge and the
per-player result map `final stack - initial stack`, where `initial_stacks`
is captured from `state.stacks` after creation and hole dealing. -/
def evaluate_poker_game (player_cards : List (String × List String))
    (board_cards : List String) (actions : List ActionDict)
    (stacks0 : List Int) (positions : List (String × Int)) :
    Except String (List (String × Int)) :=
  if stacks0.length ≠ 6 then .error "Exactly 6 players are required"
  else if !stacks0.all (fun s => decide (0 ≤ s)) then
    .error "Stacks must be non-negative integers"
  else if 6 < player_cards.length then .error "Too many players specified in player_cards"
  else if 5 < board_cards.length then .error "Too many board cards"
  else if !board_cards.all (fun c => is_valid_card c) then .error "Invalid board card format"
  else if ¬ board_cards.Nodup then .error "Duplicate board cards"
  else
    match validatePlayerCards player_cards with
    | .error e => .error e
    | .ok _ =>
      if !positions.all (fun kv => ["dealer", "sb", "bb"].contains kv.1) then
        .error "Invalid position keys"
      else if !positions.all (fun kv => decide (0 ≤ kv.2 ∧ kv.2 < 6)) then
        .error "Position indices must be between 0 and 5"
      else
        match dealPhase (create_state stacks0) board_cards player_cards with
        | .error e => .error e
        | .ok st1 =>
          let initial_stacks := st1.stacks_
          match processActions ⟨st1, 0, board_cards⟩ actions with
          | .error e => .error e
          | .ok ctx =>
            let afterShow : Except String PKState :=
              if !ctx.st.terminal && ctx.street_cards_dealt == 5 then
                match show_or_muck_hole_cards ctx.st with
                | .error e => .error ("Showdown failed: " ++ e)
                | .ok s => .ok s
              else .ok ctx.st
            match afterShow with
            | .error e => .error e
            | .ok stF =>
              .ok ((List.range 6).map (fun i =>
                (toString i, stF.stacks_.getD i 0 - initial_stacks.getD i 0)))

/-- Embeds `PokerService._create_standard_deck`: one `Card` per (rank, suit)
pair, 52 in total. -/
def _create_standard_deck : List Card :=
  (VALID_RANKS.map (fun r => VALID_SUITS.map (fun s => Card.mk r s))).flatten

/-- Game dict returned by `create_new_game` (`stacks_` models the `stacks` key;
the unsuffixed name is a reserved library token). -/
structure GameDict where
  id : String
  stacks_ : List Int
  positions : List (String × Int)
  player_cards : List (String × List String)
  board_cards : List String
  actions : List ActionDict
deriving DecidableEq

/-- Embeds the hole-dealing loop of `create_new_game` (lines 272-278): for each
of `n` players, two cards are popped, failing with the source's message when
fewer than two remain.  The card stream is the reversed shuffled deck, since
Python `list.pop()` removes from the end. -/
def dealHoles : Nat → List Card → Except String (List (List Card) × List Card)
  | 0, s => .ok ([], s)
  | Nat.succ n, c1 :: c2 :: rest =>
    (dealHoles n rest).map (fun pr => ([c1, c2] :: pr.1, pr.2))
  | Nat.succ _, _ => .error "Not enough cards in deck to deal"

/-- Embeds `PokerService.create_new_game`.  `random.shuffle` is an external
randomness source, so the shuffled deck is an explicit argument; the fresh
deck's length check happens before shuffling, on `_create_standard_deck`
itself.  Python `list.pop()` removes from the end of the list, so the dealing
order is the reverse of the shuffled list: 12 hole cards, then burn, 3 flop
cards, burn, turn, burn, river.  The `id` field (`uuid.uuid4()`) is modelled
as the empty string. -/
def create_new_game (num_players stack_size : Int) (shuffled : List Card) :
    Except String GameDict :=
  if num_players ≠ 6 then .error "Only 6-player games are supported"
  else if stack_size ≤ 0 then .error "Stack size must be a positive integer"
  else if _create_standard_deck.length ≠ 52 then
    .error "Failed to initialize deck: Deck initialization failed: Expected 52 cards"
  else
    let stream := shuffled.reverse
    match dealHoles 6 stream with
    | .error e => .error e
    | .ok (pairs, s') =>
      if s'.length < 8 then .error "Not enough cards in deck for board"
      else
        let flop := (s'.drop 1).take 3
        let turn := (s'.drop 5).take 1
        let river := (s'.drop 7).take 1
        .ok { id := "",
              stacks_ := List.replicate 6 stack_size,
              positions := [("dealer", 0), ("sb", 1), ("bb", 2)],
              player_cards := (List.range 6).map (fun i =>
                (toString i, ((pairs.getD i []).map formatCard))),
              board_cards := (flop ++ turn ++ river).map formatCard,
              actions := [] }

/-- All hole-card tokens of a submitted `player_cards` mapping, in order. -/
def holeTokens (player_cards : List (String × List String)) : List String :=
  (player_cards.map (fun kv => kv.2)).flatten

/-- All card tokens dealt by `create_new_game`: the 12 hole tokens followed by
the 5 board tokens. -/
def gameCardTokens (g : GameDict) : List String :=
  holeTokens g.player_cards ++ g.board_cards

/-- Fixture: a six-player hole-card mapping used by concrete game runs. -/
def pcEx : List (String × List String) :=
  [("0", ["As", "Kd"]), ("1", ["Qc", "Js"]), ("2", ["Td", "9h"]),
   ("3", ["8c", "7s"]), ("4", ["6d", "5h"]), ("5", ["4c", "3s"])]

/-- Fixture: a five-card board disjoint from the `pcEx` hole cards. -/
def bcEx : List String := ["2s", "2h", "2d", "2c", "3h"]

/-- Fixture: a position map with all three keys. -/
def posEx : List (String × Int) := [("dealer", 0), ("sb", 1), ("bb", 2)]

/-- Fixture: six starting stacks of 1000. -/
def stacksEx : List Int := List.replicate 6 1000

/-- Fixture: every player folds to the big blind preflop (seats 2, 3, 4, 5 and
then the small blind fold), ending the hand uncontested. -/
def foldAroundActs : List ActionDict :=
  [⟨some "fold", some (.pint 2), none⟩,
   ⟨some "fold", some (.pint 3), none⟩,
   ⟨some "fold", some (.pint 4), none⟩,
   ⟨some "fold", some (.pint 5), none⟩,
   ⟨some "fold", some (.pint 0), none⟩]

/-- Fixture: a legal preflop round (calls around, big-blind check) followed by
the flop deal; the next `deal_flop` is then the source's own error case. -/
def preflopThenFlopActs : List ActionDict :=
  [⟨some "call", some (.pint 2), none⟩,
   ⟨some "call", some (.pint 3), none⟩,
   ⟨some "call", some (.pint 4), none⟩,
   ⟨some "call", some (.pint 5), none⟩,
   ⟨some "call", some (.pint 0), none⟩,
   ⟨some "check", some (.pint 1), none⟩,
   ⟨some "deal_flop", none, none⟩]

/-- Fixture: the `deal_flop` action record. -/
def dealFlopAct : ActionDict := ⟨some "deal_flop", none, none⟩

/-- Fixture: the engine context reached by running `preflopThenFlopActs` from
the freshly dealt `pcEx`/`bcEx` game (the fallback is never taken). -/
def ctxMid : EngineCtx :=
  match dealPhase (create_state stacksEx) bcEx pcEx with
  | .error _ => ⟨create_state stacksEx, 0, bcEx⟩
  | .ok st1 =>
    match processActions ⟨st1, 0, bcEx⟩ preflopThenFlopActs with
    | .error _ => ⟨st1, 0, bcEx⟩
    | .ok c => c

/-- Fixture: the game dict produced by `create_new_game` from the unshuffled
standard deck (the fallback is never taken). -/
def gEx : GameDict :=
  (create_new_game 6 1000 _create_standard_deck).toOption.getD ⟨"", [], [], [], [], []⟩

/-- Fixture: a bet action over 5000 chips, more than any 1000-chip stack. -/
def betOverAct : ActionDict := ⟨some "bet", some (.pint 2), some (.pint 5000)⟩

/-- Fixture: the engine context right after game creation and hole dealing
(the fallback is never taken). -/
def ctxStart : EngineCtx :=
  match dealPhase (create_state stacksEx) bcEx pcEx with
  | .error _ => ⟨create_state stacksEx, 0, bcEx⟩
  | .ok st1 => ⟨st1, 0, bcEx⟩

/-- Fixture: the Python float `0.5` as an exact rational, built without
normalization so that the kernel can evaluate comparisons on it. -/
def halfFloat : Rat := ⟨1, 2, by decide, Nat.coprime_one_left 2⟩

/-- Fixture: a well-formed game-state dict carrying all five required keys. -/
def gsEx : GSDict :=
  { stacks_ := some (List.replicate 6 1000),
    positions := some [("dealer", 0), ("sb", 1), ("bb", 2)],
    player_cards := some pcEx,
    board_cards := some bcEx,
    actions := some [] }

/-- C1: the claim states that for `["As","Ks","Qs","Js","Ts"]` the single-hand
evaluator returns category RoyalFlush with numeric rank 10.  The code instead
returns hand_type "StandardHigh" and rank 1: the constructed object's class
name is "StandardHighHand", so deleting "Hand" yields "StandardHigh", which is
absent from `hand_ranks` and falls to the default 1.  The modelled evaluator
confirms the cards do form a royal flush (category 10). -/
theorem c1_royal_flush_reported_as_rank_one :
    evaluate_hand ["As", "Ks", "Qs", "Js", "Ts"] =
      .ok ⟨"StandardHigh", 1, ["As", "Ks", "Qs", "Js", "Ts"]⟩ ∧
    bestScore (["As", "Ks", "Qs", "Js", "Ts"].map parseCard) = ⟨10, [14]⟩ :=
  ⟨by decide, by decide⟩

/-- C3: the claim states that every 5-to-7-card well-formed distinct input
succeeds and yields the best obtainable HandRank.  On the full house
`["2h","2d","2c","3h","3d"]` the call succeeds but reports hand_type
"StandardHigh" and rank 1, not the best hand's category FullHouse (7): the
class-name lookup always falls to the default 1. -/
theorem c3_full_house_reported_as_rank_one :
    evaluate_hand ["2h", "2d", "2c", "3h", "3d"] =
      .ok ⟨"StandardHigh", 1, ["3d", "3h", "2c", "2d", "2h"]⟩ ∧
    bestScore (["2h", "2d", "2c", "3h", "3d"].map parseCard) = ⟨7, [2, 3]⟩ :=
  ⟨by decide, by decide⟩

/-- C2: the claim states that per-player net results always sum to zero on a
successful evaluation.  On a game where everyone folds to the big blind the
code reports the big blind winning 60 and everyone else breaking even — a sum
of 60, the posted blinds: `initial_stacks` is captured after the automated
blind posting, so the blinds never appear as losses. -/
theorem c2_fold_out_results_sum_sixty :
    evaluate_poker_game pcEx bcEx foldAroundActs stacksEx posEx =
      .ok [("0", 0), ("1", 60), ("2", 0), ("3", 0), ("4", 0), ("5", 0)] ∧
    ([(0 : Int), 60, 0, 0, 0, 0].sum ≠ 0) :=
  ⟨by decide, by decide⟩

/-- C7: the claim states that `evaluate_poker_game` is deterministic — two runs
on identical player cards, board, actions, stacks and positions produce
identical per-player results.  The embedded computation is a pure function of
those inputs (the source draws no randomness on this path), so equal inputs
give equal outputs. -/
theorem c7_evaluate_poker_game_deterministic
    (pc pc' : List (String × List String)) (bc bc' : List String)
    (acts acts' : List ActionDict) (s0 s0' : List Int)
    (pos pos' : List (String × Int))
    (h1 : pc = pc') (h2 : bc = bc') (h3 : acts = acts') (h4 : s0 = s0')
    (h5 : pos = pos') :
    evaluate_poker_game pc bc acts s0 pos = evaluate_poker_game pc' bc' acts' s0' pos' := by
  subst h1 h2 h3 h4 h5
  rfl

/-- Witness for C7 at a concrete replayed game. -/
theorem c7_witness :
    evaluate_poker_game pcEx bcEx foldAroundActs stacksEx posEx =
      evaluate_poker_game pcEx bcEx foldAroundActs stacksEx posEx :=
  c7_evaluate_poker_game_deterministic pcEx pcEx bcEx bcEx foldAroundActs foldAroundActs
    stacksEx stacksEx posEx posEx rfl rfl rfl rfl rfl

/-- C9: the claim states that "check" and "call" are dispatched to the identical
state operation (`state.check_or_call()`), so the engine step on a "check"
equals the step on a "call" by the same player in every game state — a check
submitted while facing a bet behaves as a call instead of being rejected. -/
theorem c9_check_and_call_identical (ctx : EngineCtx) (p a : Option PyVal) :
    applyEngineAction ctx ⟨some "check", p, a⟩ =
      applyEngineAction ctx ⟨some "call", p, a⟩ := by
  rfl

/-- C4 counterexample: after a legal preflop round and flop deal, the validator
accepts a second `deal_flop` (it checks only the action's shape), yet the
engine rejects it with the source's own "Flop can only be dealt once" error,
and the whole evaluation fails on the extended action list — so the engine
does not apply every action the validator accepts. -/
theorem c4_validator_accepts_but_engine_rejects :
    validate_action (state_to_dict ctxMid.st) dealFlopAct = .ok (true, none) ∧
    applyEngineAction ctxMid dealFlopAct = .error "Flop can only be dealt once" ∧
    evaluate_poker_game pcEx bcEx (preflopThenFlopActs ++ [dealFlopAct]) stacksEx posEx =
      .error "Flop can only be dealt once" :=
  ⟨by decide, by decide, by decide⟩

/-- C4 amended, surviving direction: the engine never applies an action the
validator rejects — whenever `validate_action` on the live state returns
invalid, the action loop fails with "Invalid action: ..." and no new state. -/
theorem c4_engine_rejects_what_validator_rejects
    (ctx : EngineCtx) (a : ActionDict) (m : String)
    (h : validate_action (state_to_dict ctx.st) a = .ok (false, some m)) :
    applyEngineAction ctx a = .error ("Invalid action: " ++ m) := by
  unfold applyEngineAction
  rw [h]
  rfl

/-- Witness for the amended C4 theorem at a concrete rejected action. -/
theorem c4_amended_witness :
    applyEngineAction ctxStart ⟨some "jump", none, none⟩ =
      .error "Invalid action: Invalid action type: jump" :=
  c4_engine_rejects_what_validator_rejects ctxStart ⟨some "jump", none, none⟩
    "Invalid action type: jump" (by decide)

/-- Settlement keeps the street's recorded bet level unchanged. -/
theorem settle_betLevel (st : PKState) : (settle st).betLevel = st.betLevel := rfl

/-- Bet collection keeps the street's recorded bet level unchanged. -/
theorem collectBets_betLevel (st : PKState) : (collectBets st).betLevel = st.betLevel := rfl

/-- The automated post-operation bookkeeping never changes the street's
recorded bet level. -/
theorem postAction_betLevel (st : PKState) : (postAction st).betLevel = st.betLevel := by
  unfold postAction
  dsimp only
  split_ifs <;> rfl

/-- On success, `complete_bet_or_raise_to` records exactly the requested
to-amount as the street's bet level — the amount is never capped. -/
theorem complete_ok_betLevel (st : PKState) (amt : Int) (st' : PKState)
    (h : complete_bet_or_raise_to st amt = .ok st') : st'.betLevel = amt := by
  unfold complete_bet_or_raise_to at h
  dsimp only at h
  split at h
  · exact absurd h (by simp)
  · split at h
    · exact absurd h (by simp)
    · split at h
      · exact absurd h (by simp)
      · split at h
        · exact absurd h (by simp)
        · split at h
          · exact absurd h (by simp)
          · split at h
            · exact absurd h (by simp)
            · have h2 := Except.ok.inj h
              subst h2
              rw [postAction_betLevel]

/-- A `complete_bet_or_raise_to` whose to-amount exceeds the actor's stack plus
street bet fails. -/
theorem complete_exceeds_error (st : PKState) (amt : Int) (i : Nat) (r : List Nat)
    (hq : st.queue = i :: r)
    (hgt : st.stacks_.getD i 0 + st.bets.getD i 0 < amt) :
    ∃ e, complete_bet_or_raise_to st amt = .error e := by
  unfold complete_bet_or_raise_to
  rw [hq]
  dsimp only
  split_ifs <;> exact ⟨_, rfl⟩

/-- Evaluation of the engine step on a "bet" action, split by validator
outcome: a rejected action raises, an accepted one goes to
`complete_bet_or_raise_to` with the submitted amount. -/
theorem applyEngineAction_bet_eq (ctx : EngineCtx) (p : Option PyVal) (v : PyVal) :
    applyEngineAction ctx ⟨some "bet", p, some v⟩ =
      (match validate_action (state_to_dict ctx.st) ⟨some "bet", p, some v⟩ with
      | .error e => .error e
      | .ok (false, some m) => .error ("Invalid action: " ++ m)
      | .ok (false, none) => .error "Invalid action: None"
      | .ok (true, _) =>
        match complete_bet_or_raise_to ctx.st v.toAmount with
        | .error e => .error e
        | .ok st1 => .ok ⟨st1, ctx.street_cards_dealt, ctx.board_cards⟩) := by
  unfold applyEngineAction
  rcases validate_action (state_to_dict ctx.st) ⟨some "bet", p, some v⟩ with e | ⟨valid, err⟩
  · rfl
  · cases valid
    · cases err <;> rfl
    · rfl

/-- C5: a Bet action whose amount exceeds what the acting player can put in
(remaining stack plus their already-posted street bet, pokerkit's to-amount
convention) makes the engine step fail with an error, producing no new state;
and on any successful bet the street's bet level becomes exactly the submitted
amount — the engine never silently caps a "bet" at the stack (only the
"allin" dispatch derives its amount from the stack). -/
theorem c5_oversized_bet_rejected_never_capped
    (ctx : EngineCtx) (a : ActionDict) (v : PyVal)
    (ht : a.type = some "bet") (ha : a.amount = some v) :
    (∀ i r, ctx.st.queue = i :: r →
        ctx.st.stacks_.getD i 0 + ctx.st.bets.getD i 0 < v.toAmount →
        ∃ e, applyEngineAction ctx a = .error e) ∧
    (∀ ctx', applyEngineAction ctx a = .ok ctx' → ctx'.st.betLevel = v.toAmount) := by
  rcases a with ⟨t, pl, am⟩
  dsimp only at ht ha
  subst ht
  subst ha
  constructor
  · intro i r hq hlt
    rw [applyEngineAction_bet_eq]
    rcases validate_action (state_to_dict ctx.st) ⟨some "bet", pl, some v⟩ with e | ⟨valid, err⟩
    · exact ⟨e, rfl⟩
    · cases valid
      · cases err
        · exact ⟨_, rfl⟩
        · exact ⟨_, rfl⟩
      · obtain ⟨e, hc⟩ := complete_exceeds_error ctx.st v.toAmount i r hq hlt
        rw [hc]
        exact ⟨e, rfl⟩
  · intro ctx' h
    rw [applyEngineAction_bet_eq] at h
    rcases hval : validate_action (state_to_dict ctx.st) ⟨some "bet", pl, some v⟩ with
      e | ⟨valid, err⟩ <;> rw [hval] at h
    · exact absurd h (by simp)
    · cases valid
      · cases err <;> exact absurd h (by simp)
      · rcases hc : complete_bet_or_raise_to ctx.st v.toAmount with e2 | st1 <;> rw [hc] at h
        · exact absurd h (by simp)
        · have h2 := Except.ok.inj h
          subst h2
          exact complete_ok_betLevel ctx.st v.toAmount st1 hc

/-- Witness for C5: betting 5000 into a 1000-chip stack at the freshly dealt
table fails. -/
theorem c5_witness : ∃ e, applyEngineAction ctxStart betOverAct = Except.error e :=
  (c5_oversized_bet_rejected_never_capped ctxStart betOverAct (.pint 5000) (by decide)
    (by decide)).1 2 [3, 4, 5, 0, 1] (by decide) (by decide)

/-- C10: `validate_action` accepts non-integer numeric amounts — any bet or
raise whose amount is a positive float passes with `(True, None)`, given a
valid integer player index and a game state carrying the five required keys:
`isinstance(amount, (int, float))` admits floats and only `amount <= 0` is
checked, even though chip amounts are specified as integers. -/
theorem c10_validator_accepts_positive_float
    (gs : GSDict) (t : String) (p : Int) (q : Rat)
    (hks : gs.stacks_.isSome = true) (hkp : gs.positions.isSome = true)
    (hkc : gs.player_cards.isSome = true) (hkb : gs.board_cards.isSome = true)
    (hka : gs.actions.isSome = true)
    (ht : t = "bet" ∨ t = "raise")
    (hp0 : 0 ≤ p) (hpn : p < ((gs.stacks_.getD []).length : Int))
    (hq : 0 < q) :
    validate_action gs ⟨some t, some (.pint p), some (.pfloat q)⟩ = .ok (true, none) := by
  rcases gs with ⟨s, po, pc, bc, ac⟩
  rcases s with _ | s
  · simp at hks
  rcases po with _ | po
  · simp at hkp
  rcases pc with _ | pc
  · simp at hkc
  rcases bc with _ | bc
  · simp at hkb
  rcases ac with _ | ac
  · simp at hka
  unfold validate_action validate_player_amount validate_amount
  simp only [Option.getD_some] at hpn ⊢
  rcases ht with ht | ht <;> subst ht <;>
    rw [if_neg (by omega : ¬(p < 0 ∨ ((s.length : Int) ≤ p))), if_neg (not_le.mpr hq)] <;> rfl

/-- Witness for C10: a bet of the float 0.5 by player 2 on a well-formed state
is accepted. -/
theorem c10_witness :
    validate_action gsEx ⟨some "bet", some (.pint 2), some (.pfloat halfFloat)⟩ =
      .ok (true, none) :=
  c10_validator_accepts_positive_float gsEx "bet" 2 halfFloat rfl rfl rfl rfl rfl
    (Or.inl rfl) (by decide) (by decide) (by decide)

/-- Dealing hole cards to `n` players succeeds on any stream of at least `2n`
cards, consuming exactly its first `2n` cards. -/
theorem dealHoles_ok (n : Nat) : ∀ s : List Card, 2 * n ≤ s.length →
    ∃ ps, dealHoles n s = .ok (ps, s.drop (2 * n)) ∧
      ps.flatten = s.take (2 * n) ∧ ps.length = n := by
  induction n with
  | zero =>
    intro s _
    exact ⟨[], by simp [dealHoles], by simp, rfl⟩
  | succ n ih =>
    intro s hlen
    match s with
    | [] => simp at hlen
    | [c] => simp at hlen; omega
    | c1 :: c2 :: rest =>
      have h2 : 2 * n ≤ rest.length := by
        simp only [List.length_cons] at hlen
        omega
      obtain ⟨ps, hd, hf, hl⟩ := ih rest h2
      have e2 : 2 * (n + 1) = 2 * n + 1 + 1 := by ring
      refine ⟨[c1, c2] :: ps, ?_, ?_, ?_⟩
      · show (dealHoles n rest).map _ = _
        rw [hd, e2]
        simp [Except.map, List.drop_succ_cons]
      · rw [e2]
        simp only [List.take_succ_cons, List.flatten_cons, hf]
        rfl
      · simp [hl]

/-- C6: the deck-exhaustion branches of `create_new_game` are unreachable.  From
any permutation of the fresh 52-card deck, dealing 2 cards to each of 6
players and then the 8 burn/board pops always finds a card, so neither "Not
enough cards in deck to deal" nor "Not enough cards in deck for board" can be
returned, whatever the requested player count and stack size. -/
theorem c6_deck_exhaustion_unreachable (np sz : Int) (deck : List Card)
    (hperm : List.Perm deck _create_standard_deck) :
    create_new_game np sz deck ≠ .error "Not enough cards in deck to deal" ∧
    create_new_game np sz deck ≠ .error "Not enough cards in deck for board" := by
  have hlen : deck.length = 52 := by rw [hperm.length_eq]; rfl
  have key : create_new_game np sz deck = .error "Only 6-player games are supported" ∨
      create_new_game np sz deck = .error "Stack size must be a positive integer" ∨
      ∃ g, create_new_game np sz deck = .ok g := by
    unfold create_new_game
    by_cases h6 : np ≠ 6
    · rw [if_pos h6]
      exact Or.inl rfl
    · rw [if_neg h6]
      by_cases hsz : sz ≤ 0
      · rw [if_pos hsz]
        exact Or.inr (Or.inl rfl)
      · rw [if_neg hsz, if_neg (by decide : ¬(_create_standard_deck.length ≠ 52))]
        dsimp only
        obtain ⟨ps, hd, hf, hl⟩ := dealHoles_ok 6 deck.reverse (by simp [hlen])
        rw [hd]
        dsimp only
        rw [if_neg (by simp [hlen] : ¬((deck.reverse.drop (2 * 6)).length < 8))]
        exact Or.inr (Or.inr ⟨_, rfl⟩)
  rcases key with h | h | ⟨g, h⟩ <;> rw [h] <;>
    exact ⟨by first | decide | simp, by first | decide | simp⟩

/-- Witness for C6 at the unshuffled standard deck. -/
theorem c6_witness :
    create_new_game 6 1000 _create_standard_deck ≠
        Except.error "Not enough cards in deck to deal" ∧
    create_new_game 6 1000 _create_standard_deck ≠
        Except.error "Not enough cards in deck for board" :=
  c6_deck_exhaustion_unreachable 6 1000 _create_standard_deck (List.Perm.refl _)

/-- Formatting a card as its two-character token is injective. -/
theorem formatCard_injective : Function.Injective formatCard := by
  intro a b h
  cases a
  cases b
  have h2 := congrArg String.data h
  simp only [formatCard, List.cons.injEq, and_true] at h2
  simp only [Card.mk.injEq]
  exact ⟨h2.1, h2.2⟩

/-- The fresh 52-card deck has no repeated card. -/
theorem standard_deck_nodup : _create_standard_deck.Nodup := by decide

/-- Collision-checked dealing succeeds only on pairwise-distinct cards that are
all new. -/
theorem addDealt_ok_nodup : ∀ (cs dealt d' : List Card), addDealt dealt cs = .ok d' →
    cs.Nodup ∧ ∀ c ∈ cs, c ∉ dealt := by
  intro cs
  induction cs with
  | nil =>
    intro dealt d' _
    exact ⟨List.nodup_nil, by simp⟩
  | cons c cs ih =>
    intro dealt d' h
    unfold addDealt at h
    by_cases hcont : dealt.contains c = true
    · rw [if_pos hcont] at h
      exact absurd h (by simp)
    · rw [if_neg hcont] at h
      obtain ⟨hnd, hnin⟩ := ih (dealt ++ [c]) d' h
      have hcd : c ∉ dealt := fun hc => hcont (by simpa using hc)
      refine ⟨List.nodup_cons.mpr ⟨fun hc => (hnin c hc) (by simp), hnd⟩, ?_⟩
      intro x hx
      rcases List.mem_cons.mp hx with rfl | hx
      · exact hcd
      · intro hxd
        exact (hnin x hx) (List.mem_append.mpr (Or.inl hxd))

/-- A successful `deal_hole` received pairwise-distinct cards. -/
theorem deal_hole_cards_nodup (st : PKState) (cs : List Card) (pl : Nat) (st' : PKState)
    (h : deal_hole st cs pl = .ok st') : cs.Nodup := by
  unfold deal_hole at h
  split at h
  · exact absurd h (by simp)
  · split at h
    · exact absurd h (by simp)
    · rcases hc : addDealt st.dealtCards cs with e | d'
      · rw [hc] at h
        exact absurd h (by simp)
      · exact (addDealt_ok_nodup cs st.dealtCards d' hc).1

/-- A successful hole-dealing phase implies the submitted hole tokens are
pairwise distinct and avoid every token of the accumulated `all_cards` set. -/
theorem dealPhase_tokens_nodup :
    ∀ (pcs : List (String × List String)) (st st' : PKState) (allCards : List String),
      dealPhase st allCards pcs = .ok st' →
      (holeTokens pcs).Nodup ∧ ∀ t ∈ holeTokens pcs, t ∉ allCards := by
  intro pcs
  induction pcs with
  | nil =>
    intro st st' allCards _
    exact ⟨by simp [holeTokens], by simp [holeTokens]⟩
  | cons kv rest ih =>
    rcases kv with ⟨pidx, cs⟩
    intro st st' allCards h
    have hcons : holeTokens ((pidx, cs) :: rest) = cs ++ holeTokens rest := by
      simp [holeTokens]
    unfold dealPhase at h
    by_cases hany : cs.any (fun c => allCards.contains c) = true
    · rw [if_pos hany] at h
      exact absurd h (by simp)
    · rw [if_neg hany] at h
      dsimp only at h
      rcases hint : pyToInt pidx with _ | p <;> rw [hint] at h <;> dsimp only at h
      · exact absurd h (by simp)
      · split at h
        · exact absurd h (by simp)
        · rcases hdh : deal_hole st (cs.map parseCard) p.toNat with e | st1
          · rw [hdh] at h
            exact absurd h (by simp)
          · rw [hdh] at h
            obtain ⟨hrest_nd, hrest_nin⟩ := ih st1 st' (allCards ++ cs) h
            have hcs_nd : cs.Nodup :=
              List.Nodup.of_map _ (deal_hole_cards_nodup st (cs.map parseCard) p.toNat st1 hdh)
            have hcs_nin : ∀ t ∈ cs, t ∉ allCards := by
              intro t htc hta
              exact hany (List.any_eq_true.mpr ⟨t, htc, by simpa using hta⟩)
            constructor
            · rw [hcons]
              refine List.nodup_append.mpr ⟨hcs_nd, hrest_nd, ?_⟩
              intro t htc htr
              exact (hrest_nin t htr) (List.mem_append.mpr (Or.inr htc))
            · intro t ht
              rw [hcons] at ht
              rcases List.mem_append.mp ht with h1 | h2
              · exact hcs_nin t h1
              · exact fun hta => (hrest_nin t h2) (List.mem_append.mpr (Or.inl hta))

/-- A successful `evaluate_poker_game` implies the submitted board and hole
tokens are pairwise distinct: the board duplicate check, the `all_cards`
check and the collision-checked dealing together exclude every duplicate. -/
theorem evaluate_poker_game_ok_nodup
    (pc : List (String × List String)) (bc : List String) (acts : List ActionDict)
    (s0 : List Int) (pos : List (String × Int)) (r : List (String × Int))
    (h : evaluate_poker_game pc bc acts s0 pos = .ok r) :
    (bc ++ holeTokens pc).Nodup := by
  unfold evaluate_poker_game at h
  split at h
  · exact absurd h (by simp)
  split at h
  · exact absurd h (by simp)
  split at h
  · exact absurd h (by simp)
  split at h
  · exact absurd h (by simp)
  split at h
  · exact absurd h (by simp)
  split at h
  · exact absurd h (by simp)
  rename_i hbc
  rcases hvp : validatePlayerCards pc with e | u <;> rw [hvp] at h <;> dsimp only at h
  · exact absurd h (by simp)
  split at h
  · exact absurd h (by simp)
  split at h
  · exact absurd h (by simp)
  rcases hdp : dealPhase (create_state s0) bc pc with e | st1 <;> rw [hdp] at h <;>
    dsimp only at h
  · exact absurd h (by simp)
  obtain ⟨hnd, hnin⟩ := dealPhase_tokens_nodup pc (create_state s0) st1 bc hdp
  refine List.nodup_append.mpr ⟨not_not.mp hbc, hnd, ?_⟩
  intro t htb htn
  exact (hnin t htn) htb

/-- Sublists under dropping more. -/
theorem drop_sublist_drop (l : List α) {m n : Nat} (h : n ≤ m) :
    List.Sublist (l.drop m) (l.drop n) := by
  have e : l.drop m = (l.drop n).drop (m - n) := by
    rw [List.drop_drop]
    congr 1
    omega
  rw [e]
  exact List.drop_sublist _ _

/-- A prefix followed by a sublist of the remainder is a sublist. -/
theorem take_append_sublist (l : List α) (m : Nat) (X : List α)
    (h : List.Sublist X (l.drop m)) : List.Sublist (l.take m ++ X) l := by
  conv_rhs => rw [← List.take_append_drop m l]
  exact (List.Sublist.refl _).append h

/-- A dealt segment followed by a sublist of what comes after it is a sublist
of any earlier suffix. -/
theorem seg_append_sublist (l : List α) (a m c : Nat) (Y : List α)
    (hca : c ≤ a) (hY : List.Sublist Y (l.drop (a + m))) :
    List.Sublist ((l.drop a).take m ++ Y) (l.drop c) := by
  have h1 : List.Sublist ((l.drop a).take m ++ Y) (l.drop a) := by
    apply take_append_sublist (l.drop a) m
    rw [List.drop_drop]
    simpa [Nat.add_comm] using hY
  exact h1.trans (drop_sublist_drop l hca)

/-- Every game built by `create_new_game` from a permutation of the fresh deck
holds 17 pairwise-distinct card tokens (12 hole cards and 5 board cards). -/
theorem create_new_game_ok_nodup (np sz : Int) (deck : List Card) (g : GameDict)
    (hperm : List.Perm deck _create_standard_deck)
    (h : create_new_game np sz deck = .ok g) : (gameCardTokens g).Nodup := by
  have hnd : deck.reverse.Nodup := by
    rw [List.nodup_reverse]
    exact (hperm.nodup_iff).mpr standard_deck_nodup
  unfold create_new_game at h
  split at h
  · exact absurd h (by simp)
  split at h
  · exact absurd h (by simp)
  split at h
  · exact absurd h (by simp)
  dsimp only at h
  have hlen : 2 * 6 ≤ deck.reverse.length := by
    rw [List.length_reverse, hperm.length_eq]
    decide
  obtain ⟨ps, hd, hf, hl⟩ := dealHoles_ok 6 deck.reverse hlen
  rw [hd] at h
  dsimp only at h
  split at h
  · exact absurd h (by simp)
  obtain rfl := Except.ok.inj h
  have hpc : holeTokens ((List.range 6).map fun i =>
      (toString i, ((ps.getD i []).map formatCard))) = ps.flatten.map formatCard := by
    rcases ps with _ | ⟨a0, ps⟩
    · simp at hl
    rcases ps with _ | ⟨a1, ps⟩
    · simp at hl
    rcases ps with _ | ⟨a2, ps⟩
    · simp at hl
    rcases ps with _ | ⟨a3, ps⟩
    · simp at hl
    rcases ps with _ | ⟨a4, ps⟩
    · simp at hl
    rcases ps with _ | ⟨a5, ps⟩
    · simp at hl
    rcases ps with _ | ⟨a6, ps⟩
    · simp [holeTokens, List.map_append, Function.comp, List.range_succ]
    · simp at hl
  unfold gameCardTokens
  dsimp only
  rw [hpc, ← List.map_append]
  refine List.Nodup.map formatCard_injective ?_
  refine hnd.sublist ?_
  rw [hf]
  simp only [List.append_assoc]
  apply take_append_sublist deck.reverse (2 * 6)
  have ht : List.drop 5 (List.drop (2 * 6) deck.reverse) = deck.reverse.drop 17 := by
    simp [List.drop_drop]
  have hfl : List.drop 1 (List.drop (2 * 6) deck.reverse) = deck.reverse.drop 13 := by
    simp [List.drop_drop]
  have hrv : List.drop 7 (List.drop (2 * 6) deck.reverse) = deck.reverse.drop 19 := by
    simp [List.drop_drop]
  rw [ht, hfl, hrv]
  have hr : List.Sublist ((deck.reverse.drop 19).take 1) (deck.reverse.drop (17 + 1)) :=
    (List.take_sublist _ _).trans (drop_sublist_drop deck.reverse (by omega))
  have step1 : List.Sublist ((deck.reverse.drop 17).take 1 ++ (deck.reverse.drop 19).take 1)
      (deck.reverse.drop (13 + 3)) :=
    seg_append_sublist deck.reverse 17 1 (13 + 3) _ (by omega) hr
  have step2 : List.Sublist ((deck.reverse.drop 13).take 3 ++
      ((deck.reverse.drop 17).take 1 ++ (deck.reverse.drop 19).take 1))
      (deck.reverse.drop 12) :=
    seg_append_sublist deck.reverse 13 3 12 _ (by omega) step1
  have e12 : deck.reverse.drop 12 = deck.reverse.drop (2 * 6) := by norm_num
  rw [e12] at step2
  exact step2

/-- C8: card uniqueness.  Every game returned by `create_new_game` (from any
permutation of the fresh deck) has its 12 hole-card tokens and 5 board-card
tokens pairwise distinct; and `evaluate_poker_game` returns a result only when
no card token appears more than once across the submitted hole cards and
board — any duplicated card makes it fail. -/
theorem c8_card_uniqueness :
    (∀ (np sz : Int) (deck : List Card) (g : GameDict),
        List.Perm deck _create_standard_deck → create_new_game np sz deck = .ok g →
        (gameCardTokens g).Nodup) ∧
    (∀ (pc : List (String × List String)) (bc : List String) (acts : List ActionDict)
        (s0 : List Int) (pos : List (String × Int)) (r : List (String × Int)),
        evaluate_poker_game pc bc acts s0 pos = .ok r → (bc ++ holeTokens pc).Nodup) :=
  ⟨create_new_game_ok_nodup, evaluate_poker_game_ok_nodup⟩

/-- Witness for C8: the game built from the unshuffled standard deck has
pairwise-distinct tokens, and a concrete successful evaluation run had
pairwise-distinct board and hole tokens. -/
theorem c8_witness :
    (gameCardTokens gEx).Nodup ∧ (bcEx ++ holeTokens pcEx).Nodup :=
  ⟨c8_card_uniqueness.1 6 1000 _create_standard_deck gEx (List.Perm.refl _) (by decide),
   c8_card_uniqueness.2 pcEx bcEx [] stacksEx posEx
     [("0", 0), ("1", 0), ("2", 0), ("3", 0), ("4", 0), ("5", 0)] (by decide)⟩
